import Mathlib

/-!
Verification of the scenario compilation and step-execution core of the
E2E-Senario repository (Python).  The Python modules
`app/runner/scenario_compiler.py`, `app/runner/action_transaction.py`,
`app/runner/playwright_steps.py`, `app/runner/artifact_collector.py` and the
run loop in `tests/e2e/test_scenario.py` are shallowly embedded below:
Python dicts become structures with `Option` fields, Python truthiness is
made explicit (`pyTruthy`), fallible code returns `Except`, and the
browser environment of the step executor is abstracted into an oracle that
decides the outcome of each (selector candidate, attempt) pair.
-/

namespace E2E

/-! ## Python-semantics helpers.  The string primitives the source uses
(`startswith`, `endswith`, `in`, `replace`, `split`) are implemented here by
structural recursion over the character list of a `String`, so that every
definition in this file evaluates on concrete inputs. -/

/-- Whether the first character list is a prefix of the second. -/
def charsPrefix : List Char → List Char → Bool
  | [], _ => true
  | _ :: _, [] => false
  | p :: ps, c :: cs => p == c && charsPrefix ps cs

/-- Python `s.startswith(pre)`. -/
def pyStartsWith (s pre : String) : Bool := charsPrefix pre.data s.data

/-- Python `s.endswith(suf)`. -/
def pyEndsWith (s suf : String) : Bool := charsPrefix suf.data.reverse s.data.reverse

/-- Whether the needle occurs in the haystack as a contiguous sublist. -/
def charsContains (needle : List Char) : List Char → Bool
  | [] => charsPrefix needle []
  | c :: rest => charsPrefix needle (c :: rest) || charsContains needle rest

/-- Python `needle in hay`. -/
def pyContains (hay needle : String) : Bool := charsContains needle.data hay.data

/-- Leftmost, non-overlapping replacement of `old` by `new`, fuelled by the
length of the scanned list (one fuel unit per scanned position suffices
because every step consumes at least one character). -/
def charsReplace (old new : List Char) : Nat → List Char → List Char
  | 0, l => l
  | _ + 1, [] => []
  | fuel + 1, c :: rest =>
      if charsPrefix old (c :: rest) && !old.isEmpty then
        new ++ charsReplace old new fuel (List.drop (old.length - 1) rest)
      else c :: charsReplace old new fuel rest

/-- Python `s.replace(old, new)` (all occurrences). -/
def pyReplace (s old new : String) : String :=
  String.mk (charsReplace old.data new.data s.data.length s.data)

def countWSTokens : List Char → Bool → Nat
  | [], _ => 0
  | c :: rest, inWord =>
      if c.isWhitespace then countWSTokens rest false
      else (if inWord then 0 else 1) + countWSTokens rest true

/-- `len(s.split())` in Python: the number of maximal whitespace-free runs. -/
def pySplitLen (s : String) : Nat := countWSTokens s.data false

/-- Truthiness of an optional string as Python evaluates `if s:` for a value
obtained from `dict.get`: `None` and the empty string are falsy. -/
def pyTruthy : Option String → Bool
  | none => false
  | some s => !s.data.isEmpty

/-- Python `a or b` on two `dict.get` results: the first operand when it is
truthy, otherwise the second operand verbatim. -/
def pyOr (a b : Option String) : Option String :=
  if pyTruthy a then a else b

/-! ## Data model: raw steps, success conditions, compiled steps
(`scenario_compiler.py`).  A raw step is a JSON dict; the fields the compiler
reads are modelled as `Option` values (`none` = key absent or `None`).
`params_text` stands for `step.get("params", {}).get("text")`. -/

structure RawStep where
  type : Option String := none
  url : Option String := none
  value : Option String := none
  delay_ms : Option Nat := none
  delay : Option Nat := none
  frame : Option String := none
  popup_url : Option String := none
  selector : Option String := none
  text : Option String := none
  role : Option String := none
  label : Option String := none
  aria_label : Option String := none
  params_text : Option String := none
  timeout : Option Nat := none
deriving Repr, DecidableEq

/-- One success condition emitted by the compiler: a dict with a `type` tag
(`modal_visible`, `url_changed`, `element_visible`), one payload key and a
timeout in milliseconds. -/
structure SuccessCondition where
  ctype : String
  text : Option String := none
  url : Option String := none
  selector : Option String := none
  timeout : Nat := 15000
deriving Repr, DecidableEq

structure CompiledStep where
  type : Option String := none
  url : Option String := none
  value : Option String := none
  delay_ms : Option Nat := none
  delay : Option Nat := none
  frame : Option String := none
  popup_url : Option String := none
  selector : Option String := none
  selectors : Option (List String) := none
  text : Option String := none
  success_conditions : Option (List SuccessCondition) := none
  timeout : Option Nat := none
deriving Repr, DecidableEq

structure RawScenario where
  base_url : Option String := none
  steps : List RawStep := []
deriving Repr, DecidableEq

structure CompiledScenario where
  base_url : String
  steps : List CompiledStep
  meta_compiled : Bool
  meta_compiler_version : String
deriving Repr, DecidableEq

/-! ## Selector candidate generation (`_generate_selector_candidates`) -/

/-- Order-preserving duplicate removal, keeping the first occurrence, as the
`seen` set loop at the end of `_generate_selector_candidates` does. -/
def dedupGo (seen : List String) : List String → List String
  | [] => []
  | c :: rest => if c ∈ seen then dedupGo seen rest else c :: dedupGo (c :: seen) rest

def dedupKeepFirst (l : List String) : List String := dedupGo [] l

/-- The stable-attribute test of `_generate_selector_candidates`: an id
selector (`#...`, one whitespace-token), a class selector (`....`, one
whitespace-token) or a `[data-` attribute selector. -/
def isStableSel (sel : String) : Bool :=
  (pyStartsWith sel "#" && pySplitLen sel == 1)
  || (pyStartsWith sel "." && pySplitLen sel == 1)
  || pyStartsWith sel "[data-"

/-- `selector.replace(":nth-of-type(1)", "").replace(":nth-of-type(2)", "")`. -/
def nthSimplified (sel : String) : String :=
  pyReplace (pyReplace sel ":nth-of-type(1)" "") ":nth-of-type(2)" ""

/-- The candidates contributed by the `role`/`label`/`aria_label` hints, in
source order. -/
def roleLabelCands (step : RawStep) : List String :=
  (if pyTruthy step.role then ["role=" ++ step.role.getD ""] else [])
  ++ (if pyTruthy step.label then ["label=" ++ step.label.getD ""] else [])
  ++ (if pyTruthy step.aria_label then ["[aria-label=\"" ++ step.aria_label.getD "" ++ "\"]"] else [])

/-- The candidates contributed by the `text` hint: exact-text locators. -/
def textCands (step : RawStep) : List String :=
  if pyTruthy step.text then
    ["text=\"" ++ step.text.getD "" ++ "\"", "text=/^" ++ step.text.getD "" ++ "$/"]
  else []

/-- The candidates contributed by the `selector` hint: the selector itself
when it is stable, otherwise an `nth-of-type`-stripped variant (when that
changes anything) followed by the original selector. -/
def selectorCandsOfSel (sel : String) : List String :=
  if pyStartsWith sel "#" && pySplitLen sel == 1 then [sel]
  else if pyStartsWith sel "." && pySplitLen sel == 1 then [sel]
  else if pyStartsWith sel "[data-" then [sel]
  else
    (if pyContains sel ":nth-of-type" && nthSimplified sel != sel then [nthSimplified sel] else [])
    ++ [sel]

def selectorCands (step : RawStep) : List String :=
  if pyTruthy step.selector then selectorCandsOfSel (step.selector.getD "") else []

/-- `_generate_selector_candidates`: role/label/aria first, then text
locators, then selector-derived candidates, with first-seen duplicate
removal. -/
def generate_selector_candidates (step : RawStep) : List String :=
  dedupKeepFirst (roleLabelCands step ++ textCands step ++ selectorCands step)

/-! Decomposition of the candidate list into the five priority groups the
spec names, used to state the ordering claim: (1) role/label/accessible
name, (2) exact text, (3) stable attribute, (4) simplified CSS, (5) original
CSS. -/

def stableAttrCands (step : RawStep) : List String :=
  if pyTruthy step.selector && isStableSel (step.selector.getD "") then [step.selector.getD ""] else []

def simplifiedCands (step : RawStep) : List String :=
  if pyTruthy step.selector && !isStableSel (step.selector.getD "")
      && pyContains (step.selector.getD "") ":nth-of-type"
      && nthSimplified (step.selector.getD "") != step.selector.getD "" then
    [nthSimplified (step.selector.getD "")]
  else []

def originalCands (step : RawStep) : List String :=
  if pyTruthy step.selector then [step.selector.getD ""] else []

/-! ## Success-condition inference and scenario compilation
(`_infer_success_conditions`, `compile_scenario`) -/

/-- `_infer_success_conditions(steps, i)` seen from the current step and its
successor: for a click, an `expect_text` successor yields a `modal_visible`
condition and an `expect_url`/`go` successor yields a `url_changed`
condition with a `*`-suffixed prefix pattern. -/
def infer_success_conditions (raw : RawStep) (nxt : Option RawStep) : List SuccessCondition :=
  if raw.type == some "click" then
    match nxt with
    | none => []
    | some ns =>
        let modal :=
          if ns.type == some "expect_text" then
            let nt := pyOr ns.text ns.params_text
            if pyTruthy nt then
              [{ ctype := "modal_visible", text := nt, timeout := 15000 }]
            else []
          else []
        let urlc :=
          if ns.type == some "expect_url" then
            if pyTruthy ns.url then
              let u := ns.url.getD ""
              [{ ctype := "url_changed", url := some (if pyEndsWith u "*" then u else u ++ "*"), timeout := 15000 }]
            else []
          else if ns.type == some "go" then
            if pyTruthy ns.url then
              let u := ns.url.getD ""
              [{ ctype := "url_changed", url := some (if pyEndsWith u "*" then u else u ++ "*"), timeout := 15000 }]
            else []
          else []
        modal ++ urlc
  else []

/-- The base-field copy at the top of the compile loop: only the listed keys
are carried over. -/
def baseCompiled (raw : RawStep) : CompiledStep :=
  { type := raw.type, url := raw.url, value := raw.value, delay_ms := raw.delay_ms,
    delay := raw.delay, frame := raw.frame, popup_url := raw.popup_url }

/-- The success conditions a click absorbs from an immediately following
`expect_text`/`wait_visible` step. -/
def absorbConds (absorb : Option RawStep) (next_text next_selector : Option String) :
    List SuccessCondition :=
  match absorb with
  | none => []
  | some ns =>
      if ns.type == some "expect_text" then
        if pyTruthy next_text then
          [{ ctype := "element_visible", text := next_text, timeout := 15000 }]
        else []
      else if ns.type == some "wait_visible" then
        if pyTruthy next_text then
          [{ ctype := "element_visible", text := next_text, timeout := ns.timeout.getD 15000 }]
        else if pyTruthy next_selector then
          [{ ctype := "element_visible", selector := next_selector, timeout := ns.timeout.getD 15000 }]
        else []
      else []

/-- The `click` branch of the compile loop.  It returns the list of compiled
steps this loop iteration appends: one entry when `skip_next` is set (the
`continue` skips the second, unconditional append at the end of the loop
body), two entries otherwise. -/
def compileClick (raw : RawStep) (nxt : Option RawStep) : List CompiledStep :=
  let selectors0 := generate_selector_candidates raw
  let absorb : Option RawStep :=
    match nxt with
    | some ns =>
        if ns.type == some "expect_text" || ns.type == some "wait_visible" then some ns else none
    | none => none
  let next_text : Option String :=
    match absorb with
    | some ns => pyOr ns.text ns.params_text
    | none => none
  let next_selector : Option String :=
    match absorb with
    | some ns => ns.selector
    | none => none
  let selectors :=
    if pyTruthy next_text && !(selectors0.any fun s => pyContains s "text=") then
      ("text=\"" ++ next_text.getD "" ++ "\"") :: selectors0
    else selectors0
  let b0 := baseCompiled raw
  let b1 :=
    if selectors.length > 1 then { b0 with selectors := some selectors }
    else if !selectors.isEmpty then { b0 with selector := some (selectors.headD "") }
    else { b0 with selector := raw.selector }
  let conds := infer_success_conditions raw nxt ++ absorbConds absorb next_text next_selector
  let b2 := if !conds.isEmpty then { b1 with success_conditions := some conds } else b1
  if absorb.isSome then [b2] else [b2, b2]

/-- The `expect_text` branch of the compile loop. -/
def compileExpectText (raw : RawStep) : CompiledStep :=
  let b0 := baseCompiled raw
  let text := pyOr raw.text raw.params_text
  if pyTruthy text then
    let b1 := { b0 with text := text }
    if pyTruthy raw.selector then
      { b1 with selectors := some ["text=\"" ++ text.getD "" ++ "\"", raw.selector.getD ""] }
    else b1
  else { b0 with selector := raw.selector }

/-- The `wait_visible` branch of the compile loop.  When neither a truthy
text nor a truthy selector is available the source raises `ValueError`. -/
def compileWaitVisible (raw : RawStep) : Except String CompiledStep :=
  let b0 := baseCompiled raw
  let sel := raw.selector
  let text := pyOr raw.text raw.params_text
  let core : Except String CompiledStep :=
    if pyTruthy text then
      let b1 := { b0 with text := text }
      .ok (if pyTruthy sel then
        { b1 with selectors := some ["text=\"" ++ text.getD "" ++ "\"", sel.getD ""] }
      else b1)
    else if pyTruthy sel then
      let selectors := generate_selector_candidates raw
      .ok (if selectors.length > 1 then { b0 with selectors := some selectors }
        else { b0 with selector := sel })
    else .error "wait_visible step requires a selector or text field"
  match core with
  | .error e => .error e
  | .ok b => .ok { b with timeout := some (raw.timeout.getD 15000) }

/-- One iteration of the compile loop: the compiled steps appended for this
raw step (given its successor), or the `ValueError` the iteration raises. -/
def compileOne (raw : RawStep) (nxt : Option RawStep) : Except String (List CompiledStep) :=
  if raw.type == some "click" then .ok (compileClick raw nxt)
  else if raw.type == some "expect_text" then .ok [compileExpectText raw]
  else if raw.type == some "wait_visible" then
    match compileWaitVisible raw with
    | .error e => .error e
    | .ok c => .ok [c]
  else if raw.type == some "fill" || raw.type == some "go" || raw.type == some "expect_visible"
      || raw.type == some "expect_url" || raw.type == some "wait_url" then
    .ok [baseCompiled raw]
  else
    .ok [if raw.params_text.isSome then { baseCompiled raw with text := raw.params_text }
      else baseCompiled raw]

def compileSteps : List RawStep → Except String (List CompiledStep)
  | [] => .ok []
  | raw :: rest =>
      match compileOne raw rest.head? with
      | .error e => .error e
      | .ok emitted =>
          match compileSteps rest with
          | .error e => .error e
          | .ok tail => .ok (emitted ++ tail)

/-- `compile_scenario`: compile all steps and attach the `_meta` marker. -/
def compile_scenario (raw : RawScenario) : Except String CompiledScenario :=
  match compileSteps raw.steps with
  | .error e => .error e
  | .ok st =>
      .ok { base_url := raw.base_url.getD ""
            steps := st
            meta_compiled := true
            meta_compiler_version := "1.0.0" }

/-! ## Action transaction executor
(`ActionTransaction.execute_click_transaction`, `action_transaction.py`).
The browser is abstracted into an oracle: for selector candidate `i` and
attempt number `a` it reports either that the attempt body
(pre-stabilize + multi-strategy click) raised, or that the click went
through with a given strategy name and that the success-condition
evaluation, were it consulted, would report the given boolean. -/

inductive AttemptOutcome where
  | raises (err : String)
  | clicked (method : String) (condMet : Bool)
deriving Repr, DecidableEq

def AttemptOutcome.isClicked : AttemptOutcome → Bool
  | .raises _ => false
  | .clicked _ _ => true

inductive CandidateResult where
  | succeeded (method : String)
  | failedWith (err : String)
  | failedQuiet
deriving Repr, DecidableEq

def CandidateResult.isSucc : CandidateResult → Bool
  | .succeeded _ => true
  | _ => false

def CandidateResult.isFailedWith : CandidateResult → Bool
  | .failedWith _ => true
  | _ => false

/-- Statistics of one run of the executor: its outcome, the number of
attempt-body executions (each one = pre-stabilize, action, settle) and the
number of calls to `_evaluate_success_conditions`. -/
structure AttemptStats where
  result : CandidateResult
  attempts : Nat
  evals : Nat
deriving Repr, DecidableEq

/-- The inner `for attempt in range(max_retries + 1)` loop of
`execute_click_transaction`, for one selector candidate.  An exception
retries while `attempt < max_retries` and otherwise records the error and
breaks; a click with conditions present consults the evaluation and either
returns success, retries, or breaks silently; a click without conditions
returns success at once. -/
def attemptLoopGo (oracle : Nat → AttemptOutcome) (hasConds : Bool) (max_retries : Nat) :
    Nat → Nat → AttemptStats
  | _, 0 => { result := .failedQuiet, attempts := 0, evals := 0 }
  | attempt, fuel + 1 =>
      match oracle attempt with
      | .raises err =>
          if attempt < max_retries then
            let s := attemptLoopGo oracle hasConds max_retries (attempt + 1) fuel
            { s with attempts := s.attempts + 1 }
          else { result := .failedWith err, attempts := 1, evals := 0 }
      | .clicked method condMet =>
          if hasConds then
            if condMet then { result := .succeeded method, attempts := 1, evals := 1 }
            else if attempt < max_retries then
              let s := attemptLoopGo oracle hasConds max_retries (attempt + 1) fuel
              { s with attempts := s.attempts + 1, evals := s.evals + 1 }
            else { result := .failedQuiet, attempts := 1, evals := 1 }
          else { result := .succeeded method, attempts := 1, evals := 0 }

/-- The loop runs from `attempt` while `attempt < max_retries` allows a
retry, so `max_retries + 1 - attempt` fuel units always suffice; the
fuel-exhausted default of `attemptLoopGo` is unreachable from here. -/
def attemptLoop (oracle : Nat → AttemptOutcome) (hasConds : Bool) (max_retries : Nat)
    (attempt : Nat) : AttemptStats :=
  attemptLoopGo oracle hasConds max_retries attempt (max_retries + 1 - attempt)

deriving instance DecidableEq for Except

structure ExecStats where
  result : Except String (Bool × String)
  attempts : Nat
  evals : Nat
deriving Repr, DecidableEq

def ExecStats.isPass (s : ExecStats) : Bool :=
  match s.result with
  | .ok (true, _) => true
  | _ => false

def ExecStats.isRaise (s : ExecStats) : Bool :=
  match s.result with
  | .error _ => true
  | _ => false

/-- The outer `for sel in selectors` loop: candidate indices are tried in
order; a candidate that breaks with an exception overwrites `last_error`,
one that breaks with only unmet success conditions leaves it untouched.
After the last candidate, `last_error` is re-raised when set, and otherwise
`(False, "unknown")` is returned. -/
def selectorLoop (oracle : Nat → Nat → AttemptOutcome) (hasConds : Bool) (max_retries : Nat) :
    List Nat → Option String → ExecStats
  | [], lastErr =>
      match lastErr with
      | some e => { result := .error e, attempts := 0, evals := 0 }
      | none => { result := .ok (false, "unknown"), attempts := 0, evals := 0 }
  | i :: rest, lastErr =>
      let s := attemptLoop (oracle i) hasConds max_retries 0
      match s.result with
      | .succeeded m => { result := .ok (true, m), attempts := s.attempts, evals := s.evals }
      | .failedWith e =>
          let r := selectorLoop oracle hasConds max_retries rest (some e)
          { result := r.result, attempts := s.attempts + r.attempts, evals := s.evals + r.evals }
      | .failedQuiet =>
          let r := selectorLoop oracle hasConds max_retries rest lastErr
          { result := r.result, attempts := s.attempts + r.attempts, evals := s.evals + r.evals }

/-- `selector: str | List[str]` is normalized to a list at the top of
`execute_click_transaction`. -/
def normalizeSelectors : Sum String (List String) → List String
  | .inl s => [s]
  | .inr l => l

/-- `execute_click_transaction` over the abstract browser oracle. -/
def execute_click_transaction (oracle : Nat → Nat → AttemptOutcome)
    (selector : Sum String (List String)) (success_conditions : List SuccessCondition)
    (max_retries : Nat) : ExecStats :=
  let selectors := normalizeSelectors selector
  selectorLoop oracle (!success_conditions.isEmpty) max_retries
    (List.range selectors.length) none

/-! ## Step execution (`playwright_steps.py`) -/

/-- The error taxonomy of the spec, used by the step models below.
`successConditionTimeout` stands for the Playwright timeout the `wait_url`
branch re-raises, `popupNotOpened` for the `RuntimeError` of the
`click_popup` branch, `popupUrlMismatch` for a re-raised `popup_url`
assertion failure. -/
inductive StepError where
  | successConditionTimeout
  | popupNotOpened
  | popupUrlMismatch
deriving Repr, DecidableEq

/-- The `text=` filter of the compiled-click branch of `run_step`:
candidates starting with `text=` (or `text="`) locate expected text, not a
click target. -/
def isTextSel (s : String) : Bool :=
  pyStartsWith s "text=" || pyStartsWith s "text=\""

def clickable_selectors (selectors : List String) : List String :=
  selectors.filter fun s => !isTextSel s

/-- The list of candidates `run_step` actually clicks: the filtered list, or
the original list when filtering removed everything. -/
def selectorsForClick (selectors : List String) : List String :=
  let cl := clickable_selectors selectors
  if cl.isEmpty then selectors else cl

/-- Whether the live URL, seen as a function of (discrete) time, satisfies a
predicate at some instant up to the timeout: the abstraction of
`page.wait_for_function(..., timeout=...)`. -/
def urlMatchWithin (live : Nat → String) (timeout : Nat) (p : String → Bool) : Bool :=
  (List.range (timeout + 1)).any fun t => p (live t)

/-- The `wait_url` branch of `run_step`.  A URL ending in `*` waits for the
live URL to start with the part before the `*`; on timeout a last look at
the current URL is taken before re-raising.  Any other URL is matched
exactly, with a prefix-match fallback on timeout.  An empty (falsy) URL
skips the wait entirely. -/
def run_wait_url (url : String) (timeout : Nat) (live : Nat → String) : Except StepError Unit :=
  if url == "" then .ok ()
  else if pyEndsWith url "*" then
    let pref := url.dropRight 1
    if urlMatchWithin live timeout (fun u => pyStartsWith u pref) then .ok ()
    else if pyStartsWith (live timeout) pref then .ok ()
    else .error .successConditionTimeout
  else
    if urlMatchWithin live timeout (fun u => u == url) then .ok ()
    else if pyStartsWith (live timeout) url then .ok ()
    else .error .successConditionTimeout

/-- The `click_popup` branch of `run_step`, from the `expect_page` block on.
`opened` is the page (if any) that opened within the timeout as a
consequence of the click, `openedUrl` its URL once loaded.  When a page
opened and the optional `popup_url` check passes, the new page is appended
to the page stack and returned as the new active page. -/
def run_click_popup (stack : List Nat) (opened : Option Nat) (openedUrl : String)
    (popup_url : String) : Except StepError (List Nat × Nat) :=
  match opened with
  | none => .error .popupNotOpened
  | some np =>
      if popup_url != "" && !(openedUrl == popup_url) && !(pyStartsWith openedUrl popup_url) then
        .error .popupUrlMismatch
      else .ok (stack ++ [np], np)

/-! ## Scenario run loop (`test_scenario.py`) with failure-artifact
collection (`artifact_collector.py`).  Step execution is abstracted into a
function from (1-based) step index and step type to a pass/fail outcome;
the loop appends one step-log entry per executed step and, on the first
failure, collects the failure artifacts and re-raises. -/

structure StepLogEntry where
  idx : Nat
  stype : String
  status : String
deriving Repr, DecidableEq

structure RunOutcome where
  log : List StepLogEntry
  artifacts : List Nat
  result : Except String Unit
deriving Repr, DecidableEq

def runLoopGo (stepExec : Nat → String → Except String Unit) (i : Nat) :
    List String → RunOutcome
  | [] => { log := [], artifacts := [], result := .ok () }
  | t :: rest =>
      match stepExec i t with
      | .ok _ =>
          let o := runLoopGo stepExec (i + 1) rest
          { log := { idx := i, stype := t, status := "PASSED" } :: o.log
            artifacts := o.artifacts
            result := o.result }
      | .error e =>
          { log := [{ idx := i, stype := t, status := "FAILED" }]
            artifacts := [i]
            result := .error e }

/-- The step loop of `test_scenario`, starting at step index 1. -/
def test_scenario_run (stepExec : Nat → String → Except String Unit)
    (types : List String) : RunOutcome :=
  runLoopGo stepExec 1 types

/-! ## Concrete inputs used by witnesses and counterexamples -/

def exClickA : RawStep := { type := some "click", selector := some "#a" }

def exExpectHello : RawStep := { type := some "expect_text", text := some "Hello" }

def exWaitVisBare : RawStep := { type := some "wait_visible" }

def exWaitVisSel : RawStep := { type := some "wait_visible", selector := some ".modal" }

def exRichStep : RawStep :=
  { type := some "click", role := some "button", text := some "OK"
    selector := some "div > ul:nth-of-type(2) > li" }

def exCondWelcome : SuccessCondition := { ctype := "element_visible", text := some "Welcome" }

/-- An oracle whose clicks always go through but never satisfy the success
conditions. -/
def oracleCondFail : Nat → Nat → AttemptOutcome :=
  fun _ _ => .clicked "native_click" false

/-- An oracle that raises on candidate 0 and clicks successfully on
candidate 1. -/
def oracleSecondWorks : Nat → Nat → AttemptOutcome :=
  fun i _ => if i == 0 then .raises "ElementNotActionable" else .clicked "native_click" true

/-- A live-URL trace that navigates to the done page at instant 1. -/
def liveDone : Nat → String :=
  fun t => if t == 0 then "https://x.test/start" else "https://x.test/done?id=1"

/-- A live-URL trace that never leaves the start page. -/
def liveStuck : Nat → String := fun _ => "https://x.test/start"

def exStepExec : Nat → String → Except String Unit :=
  fun i _ => if i ≤ 1 then .ok () else .error "AllStrategiesFailed"

/-- The PASSED step-log entries the run loop writes for a run of steps that
all succeed, starting at step index `i`. -/
def passedLog (i : Nat) : List String → List StepLogEntry
  | [] => []
  | t :: rest => { idx := i, stype := t, status := "PASSED" } :: passedLog (i + 1) rest

/-! # Theorems -/

/-! ## Duplicate-removal lemmas -/

theorem dedupGo_avoid : ∀ (l seen : List String), ∀ x ∈ dedupGo seen l, x ∉ seen
  | [], _ => by intro x hx; simp [dedupGo] at hx
  | c :: rest, seen => by
      intro x hx
      by_cases hc : c ∈ seen
      · rw [dedupGo, if_pos hc] at hx
        exact dedupGo_avoid rest seen x hx
      · rw [dedupGo, if_neg hc] at hx
        rcases List.mem_cons.mp hx with rfl | hx
        · exact hc
        · intro hxs
          exact dedupGo_avoid rest (c :: seen) x hx (List.mem_cons_of_mem c hxs)

theorem dedupGo_nodup : ∀ (l seen : List String), (dedupGo seen l).Nodup
  | [], _ => by simp [dedupGo]
  | c :: rest, seen => by
      by_cases hc : c ∈ seen
      · rw [dedupGo, if_pos hc]
        exact dedupGo_nodup rest seen
      · rw [dedupGo, if_neg hc]
        refine List.nodup_cons.mpr ⟨fun hmem => ?_, dedupGo_nodup rest (c :: seen)⟩
        exact dedupGo_avoid rest (c :: seen) c hmem (List.mem_cons_self c seen)

theorem dedupKeepFirst_nodup (l : List String) : (dedupKeepFirst l).Nodup :=
  dedupGo_nodup l []

theorem dedupKeepFirst_ne_nil (l : List String) (h : l ≠ []) : dedupKeepFirst l ≠ [] := by
  cases l with
  | nil => exact absurd rfl h
  | cons c rest => simp [dedupKeepFirst, dedupGo]

theorem dedupGo_append_mem :
    ∀ (l seen : List String) (a : String), a ∈ l ∨ a ∈ seen →
      dedupGo seen (l ++ [a]) = dedupGo seen l
  | [], seen, a, h => by
      rcases h with h | h
      · simp at h
      · simp [dedupGo, h]
  | c :: rest, seen, a, h => by
      by_cases hc : c ∈ seen
      · rw [List.cons_append, dedupGo, if_pos hc, dedupGo, if_pos hc]
        refine dedupGo_append_mem rest seen a ?_
        rcases h with h | h
        · rcases List.mem_cons.mp h with rfl | h
          · exact Or.inr hc
          · exact Or.inl h
        · exact Or.inr h
      · rw [List.cons_append, dedupGo, if_neg hc, dedupGo, if_neg hc]
        congr 1
        refine dedupGo_append_mem rest (c :: seen) a ?_
        rcases h with h | h
        · rcases List.mem_cons.mp h with rfl | h
          · exact Or.inr (List.mem_cons_self a seen)
          · exact Or.inl h
        · exact Or.inr (List.mem_cons_of_mem c h)

theorem dedupKeepFirst_append_mem (l : List String) (a : String) (h : a ∈ l) :
    dedupKeepFirst (l ++ [a]) = dedupKeepFirst l :=
  dedupGo_append_mem l [] a (Or.inl h)

/-! ## Selector-candidate lemmas -/

theorem selectorCandsOfSel_stable (sel : String) (h : isStableSel sel = true) :
    selectorCandsOfSel sel = [sel] := by
  by_cases h1 : (pyStartsWith sel "#" && pySplitLen sel == 1) = true
  · simp [selectorCandsOfSel, h1]
  · by_cases h2 : (pyStartsWith sel "." && pySplitLen sel == 1) = true
    · simp [selectorCandsOfSel, h1, h2]
    · by_cases h3 : pyStartsWith sel "[data-" = true
      · simp [selectorCandsOfSel, h1, h2, h3]
      · exfalso
        rw [isStableSel] at h
        simp [h1, h2, h3] at h

theorem selectorCandsOfSel_unstable (sel : String) (h : isStableSel sel = false) :
    selectorCandsOfSel sel =
      (if pyContains sel ":nth-of-type" && nthSimplified sel != sel then [nthSimplified sel]
        else []) ++ [sel] := by
  rw [isStableSel] at h
  rcases Bool.or_eq_false_iff.mp h with ⟨h12, h3⟩
  rcases Bool.or_eq_false_iff.mp h12 with ⟨h1, h2⟩
  simp [selectorCandsOfSel, h1, h2, h3]

theorem selectorCandsOfSel_ne_nil (sel : String) : selectorCandsOfSel sel ≠ [] := by
  by_cases h : isStableSel sel = true
  · rw [selectorCandsOfSel_stable sel h]
    simp
  · have hf : isStableSel sel = false := by
      cases hval : isStableSel sel with
      | true => exact absurd hval h
      | false => rfl
    rw [selectorCandsOfSel_unstable sel hf]
    simp

theorem generate_eq_priority_groups (step : RawStep) :
    generate_selector_candidates step =
      dedupKeepFirst (roleLabelCands step ++ textCands step ++ stableAttrCands step
        ++ simplifiedCands step ++ originalCands step) := by
  rw [generate_selector_candidates]
  by_cases hs : pyTruthy step.selector = true
  · by_cases hst : isStableSel (step.selector.getD "") = true
    · have hsel : selectorCands step = [step.selector.getD ""] := by
        rw [selectorCands, if_pos hs, selectorCandsOfSel_stable _ hst]
      have hstab : stableAttrCands step = [step.selector.getD ""] := by
        simp [stableAttrCands, hs, hst]
      have hsimp : simplifiedCands step = [] := by
        simp [simplifiedCands, hst]
      have horig : originalCands step = [step.selector.getD ""] := by
        simp [originalCands, hs]
      rw [hsel, hstab, hsimp, horig]
      have key : dedupKeepFirst ((roleLabelCands step ++ textCands step
            ++ [step.selector.getD ""]) ++ [step.selector.getD ""])
          = dedupKeepFirst (roleLabelCands step ++ textCands step
            ++ [step.selector.getD ""]) :=
        dedupKeepFirst_append_mem _ _ (by simp)
      have hlist : roleLabelCands step ++ textCands step ++ [step.selector.getD ""]
            ++ [] ++ [step.selector.getD ""]
          = (roleLabelCands step ++ textCands step ++ [step.selector.getD ""])
            ++ [step.selector.getD ""] := by simp
      rw [hlist, key]
    · have hstf : isStableSel (step.selector.getD "") = false := by
        cases hval : isStableSel (step.selector.getD "") with
        | true => exact absurd hval hst
        | false => rfl
      have hsel : selectorCands step =
          (if pyContains (step.selector.getD "") ":nth-of-type"
              && nthSimplified (step.selector.getD "") != step.selector.getD "" then
            [nthSimplified (step.selector.getD "")] else []) ++ [step.selector.getD ""] := by
        rw [selectorCands, if_pos hs, selectorCandsOfSel_unstable _ hstf]
      have hstab : stableAttrCands step = [] := by
        simp [stableAttrCands, hst]
      have hsimp : simplifiedCands step =
          (if pyContains (step.selector.getD "") ":nth-of-type"
              && nthSimplified (step.selector.getD "") != step.selector.getD "" then
            [nthSimplified (step.selector.getD "")] else []) := by
        simp [simplifiedCands, hs, hstf]
      have horig : originalCands step = [step.selector.getD ""] := by
        simp [originalCands, hs]
      rw [hsel, hstab, hsimp, horig]
      congr 1
      simp [List.append_assoc]
  · have hs' : pyTruthy step.selector = false := Bool.eq_false_iff.mpr hs
    have hsel : selectorCands step = [] := by simp [selectorCands, hs']
    have hstab : stableAttrCands step = [] := by simp [stableAttrCands, hs']
    have hsimp : simplifiedCands step = [] := by simp [simplifiedCands, hs']
    have horig : originalCands step = [] := by simp [originalCands, hs']
    rw [hsel, hstab, hsimp, horig]
    simp

/-- C5: for every raw step carrying at least one truthy `selector`, `text`,
`role`, `label` or `aria-label` hint, the generated selector-candidate list
is non-empty, contains no duplicates (first-seen order preserved), and is
exactly the first-seen deduplication of the five priority groups in the
fixed order: role/label/accessible-name locators, exact-text locators,
stable attribute selectors (id, single-token class, `data-*`), the original
selector with its `nth-of-type` qualifiers stripped, then the original
selector verbatim. -/
theorem C5_candidate_priority (step : RawStep) :
    (generate_selector_candidates step).Nodup ∧
    generate_selector_candidates step =
      dedupKeepFirst (roleLabelCands step ++ textCands step ++ stableAttrCands step
        ++ simplifiedCands step ++ originalCands step) ∧
    ((pyTruthy step.selector || pyTruthy step.text || pyTruthy step.role
        || pyTruthy step.label || pyTruthy step.aria_label) = true →
      generate_selector_candidates step ≠ []) := by
  refine ⟨dedupKeepFirst_nodup _, generate_eq_priority_groups step, fun hint => ?_⟩
  rw [generate_selector_candidates]
  apply dedupKeepFirst_ne_nil
  intro hnil
  rcases List.append_eq_nil.mp hnil with ⟨hrt, hsel⟩
  rcases List.append_eq_nil.mp hrt with ⟨hr, ht⟩
  simp only [Bool.or_eq_true] at hint
  rcases hint with ((((hselT | htext) | hrole) | hlab) | haria)
  · rw [selectorCands, if_pos hselT] at hsel
    exact selectorCandsOfSel_ne_nil _ hsel
  · simp [textCands, htext] at ht
  · simp [roleLabelCands, hrole] at hr
  · simp [roleLabelCands, hlab] at hr
  · simp [roleLabelCands, haria] at hr

/-- C5 witness: a concrete step carrying role, text and selector hints has a
non-empty candidate list. -/
theorem C5_candidate_priority_witness : generate_selector_candidates exRichStep ≠ [] :=
  (C5_candidate_priority exRichStep).2.2 (by decide)

/-! ## Compile-loop counting (claim C1) and totality (claim C3) -/

/-- C1 (code bug): the compiled step count is **not** bounded by the raw
step count, and an absorbed `expect_text` step is **not** removed from the
compiled sequence.  A single raw click step with no absorbable successor is
appended twice (once in the click branch, once by the unconditional append
at the end of the loop body), and a click followed by `expect_text` absorbs
the assertion into its success conditions (two conditions below) while the
`continue` fails to skip the absorbed step, which is still compiled as an
independent step. -/
theorem C1_compiled_count_bug :
    Except.map List.length (compileSteps [exClickA]) = .ok 2 ∧
    Except.map (fun l => l.map fun c => c.type) (compileSteps [exClickA, exExpectHello])
      = .ok [some "click", some "expect_text"] ∧
    Except.map (fun l => l.map fun c => (c.success_conditions.getD []).length)
      (compileSteps [exClickA, exExpectHello]) = .ok [2, 0] := by
  decide

/-- C3 counterexample: a well-formed raw scenario holding one `wait_visible`
step with neither selector nor text makes `compile_scenario` raise
(`ValueError` in the source) instead of passing the step through. -/
theorem C3_wait_visible_raises :
    compile_scenario { steps := [exWaitVisBare] } =
      .error "wait_visible step requires a selector or text field" := by
  decide

theorem compileWaitVisible_ok (raw : RawStep)
    (h : pyTruthy (pyOr raw.text raw.params_text) = true ∨ pyTruthy raw.selector = true) :
    ∃ c, compileWaitVisible raw = .ok c := by
  rw [compileWaitVisible]
  by_cases ht : pyTruthy (pyOr raw.text raw.params_text) = true
  · simp only [ht, if_true]
    by_cases hs : pyTruthy raw.selector = true <;> simp [hs]
  · have hs : pyTruthy raw.selector = true := by
      rcases h with h | h
      · exact absurd h ht
      · exact h
    simp only [ht, if_false, Bool.false_eq_true, hs, if_true]
    by_cases hl : (generate_selector_candidates raw).length > 1 <;> simp [hl]

theorem compileOne_ok (raw : RawStep) (nxt : Option RawStep)
    (h : raw.type = some "wait_visible" →
      pyTruthy (pyOr raw.text raw.params_text) = true ∨ pyTruthy raw.selector = true) :
    ∃ l, compileOne raw nxt = .ok l := by
  rw [compileOne]
  by_cases h1 : (raw.type == some "click") = true
  · simp [h1]
  · by_cases h2 : (raw.type == some "expect_text") = true
    · simp [h1, h2]
    · by_cases h3 : (raw.type == some "wait_visible") = true
      · have htype : raw.type = some "wait_visible" := eq_of_beq h3
        rcases compileWaitVisible_ok raw (h htype) with ⟨c, hc⟩
        simp [h1, h2, h3, hc]
      · simp only [h1, h2, h3, Bool.false_eq_true, if_false]
        by_cases h4 : (raw.type == some "fill" || raw.type == some "go"
            || raw.type == some "expect_visible" || raw.type == some "expect_url"
            || raw.type == some "wait_url") = true
        · simp [h4]
        · simp only [h4, Bool.false_eq_true, if_false]
          by_cases h5 : raw.params_text.isSome = true <;> simp [h5]

theorem compileSteps_ok (steps : List RawStep)
    (h : ∀ step ∈ steps, step.type = some "wait_visible" →
      pyTruthy (pyOr step.text step.params_text) = true ∨ pyTruthy step.selector = true) :
    ∃ l, compileSteps steps = .ok l := by
  induction steps with
  | nil => exact ⟨[], rfl⟩
  | cons a rest ih =>
      rcases compileOne_ok a rest.head? (h a (List.mem_cons_self a rest)) with ⟨la, ha⟩
      rcases ih (fun s hs => h s (List.mem_cons_of_mem a hs)) with ⟨lr, hr⟩
      exact ⟨la ++ lr, by rw [compileSteps, ha, hr]⟩

/-- C3 (amended): `compile_scenario` is total for every well-formed raw
scenario in which each `wait_visible` step carries a truthy text or a
truthy selector; a `wait_visible` step with neither raises `ValueError`
(see the counterexample), while every other unrecognized or unenrichable
step passes through without an exception. -/
theorem C3_compile_total_amended (raw : RawScenario)
    (h : ∀ step ∈ raw.steps, step.type = some "wait_visible" →
      pyTruthy (pyOr step.text step.params_text) = true ∨ pyTruthy step.selector = true) :
    ∃ out, compile_scenario raw = .ok out := by
  rcases compileSteps_ok raw.steps h with ⟨l, hl⟩
  exact ⟨_, by rw [compile_scenario, hl]⟩

/-- C3 witness: a concrete scenario (a click, a `wait_visible` with a
selector, and a step of unknown type) compiles without an exception. -/
theorem C3_compile_total_amended_witness :
    ∃ out, compile_scenario
      { base_url := some "https://x.test"
        steps := [exClickA, exWaitVisSel, { type := some "scroll" }] } = .ok out :=
  C3_compile_total_amended _ (by decide)

/-! ## Executor lemmas (claims C2, C4, C6) -/

theorem attemptLoopGo_attempts_le (oracle : Nat → AttemptOutcome) (hc : Bool) (N : Nat) :
    ∀ (fuel a : Nat), (attemptLoopGo oracle hc N a fuel).attempts ≤ fuel
  | 0, a => by simp [attemptLoopGo]
  | fuel + 1, a => by
      rw [attemptLoopGo]
      cases ho : oracle a with
      | raises err =>
          by_cases hlt : a < N
          · have ih := attemptLoopGo_attempts_le oracle hc N fuel (a + 1)
            simp only [hlt, if_true]
            omega
          · simp [hlt]
      | clicked m c =>
          cases hc with
          | false => simp
          | true =>
              cases c with
              | true => simp
              | false =>
                  by_cases hlt : a < N
                  · have ih := attemptLoopGo_attempts_le oracle true N fuel (a + 1)
                    simp only [hlt, if_true, Bool.false_eq_true, if_false]
                    omega
                  · simp [hlt]

theorem attemptLoop_attempts_le (oracle : Nat → AttemptOutcome) (hc : Bool) (N : Nat) :
    (attemptLoop oracle hc N 0).attempts ≤ N + 1 := by
  have h := attemptLoopGo_attempts_le oracle hc N (N + 1 - 0) 0
  simpa [attemptLoop] using h

theorem selectorLoop_attempts_le (oracle : Nat → Nat → AttemptOutcome) (hc : Bool) (N : Nat) :
    ∀ (ids : List Nat) (le : Option String),
      (selectorLoop oracle hc N ids le).attempts ≤ ids.length * (N + 1)
  | [], le => by cases le <;> simp [selectorLoop]
  | i :: rest, le => by
      simp only [selectorLoop]
      have h1 := attemptLoop_attempts_le (oracle i) hc N
      cases hres : (attemptLoop (oracle i) hc N 0).result with
      | succeeded m =>
          simp only [hres, List.length_cons, Nat.succ_mul]
          omega
      | failedWith e =>
          have h2 := selectorLoop_attempts_le oracle hc N rest (some e)
          simp only [hres, List.length_cons, Nat.succ_mul]
          omega
      | failedQuiet =>
          have h2 := selectorLoop_attempts_le oracle hc N rest le
          simp only [hres, List.length_cons, Nat.succ_mul]
          omega

/-- C4: for a click step with `max_retries = N`, the executor performs at
most `N + 1` attempts (pre-stabilize, action, evaluate) per selector
candidate before advancing to the next candidate, and at most
`candidates × (N + 1)` attempts in total. -/
theorem C4_attempt_bounds (oracle : Nat → Nat → AttemptOutcome)
    (selector : Sum String (List String)) (conds : List SuccessCondition) (N : Nat) :
    (∀ i, (attemptLoop (oracle i) (!conds.isEmpty) N 0).attempts ≤ N + 1) ∧
    (execute_click_transaction oracle selector conds N).attempts
      ≤ (normalizeSelectors selector).length * (N + 1) := by
  refine ⟨fun i => attemptLoop_attempts_le _ _ _, ?_⟩
  rw [execute_click_transaction]
  have h := selectorLoop_attempts_le oracle (!conds.isEmpty) N
    (List.range (normalizeSelectors selector).length) none
  simpa using h

theorem attemptLoopGo_noconds_evals (oracle : Nat → AttemptOutcome) (N : Nat) :
    ∀ (fuel a : Nat), (attemptLoopGo oracle false N a fuel).evals = 0
  | 0, a => by simp [attemptLoopGo]
  | fuel + 1, a => by
      rw [attemptLoopGo]
      cases ho : oracle a with
      | raises err =>
          by_cases hlt : a < N
          · have ih := attemptLoopGo_noconds_evals oracle N fuel (a + 1)
            simp only [hlt, if_true]
            omega
          · simp [hlt]
      | clicked m c => simp

theorem attemptLoopGo_noconds_succ_iff (oracle : Nat → AttemptOutcome) (N : Nat) :
    ∀ (fuel a : Nat), a + fuel = N + 1 →
      ((attemptLoopGo oracle false N a fuel).result.isSucc = true ↔
        ∃ b, a ≤ b ∧ b ≤ N ∧ (oracle b).isClicked = true)
  | 0, a, h => by
      simp only [attemptLoopGo, CandidateResult.isSucc]
      constructor
      · intro hfalse
        exact absurd hfalse (by simp)
      · rintro ⟨b, h1, h2, _⟩
        omega
  | fuel + 1, a, h => by
      rw [attemptLoopGo]
      cases ho : oracle a with
      | raises err =>
          by_cases hlt : a < N
          · simp only [hlt, if_true]
            rw [attemptLoopGo_noconds_succ_iff oracle N fuel (a + 1) (by omega)]
            constructor
            · rintro ⟨b, h1, h2, h3⟩
              exact ⟨b, by omega, h2, h3⟩
            · rintro ⟨b, h1, h2, h3⟩
              rcases Nat.eq_or_lt_of_le h1 with rfl | h1b
              · rw [ho] at h3
                simp [AttemptOutcome.isClicked] at h3
              · exact ⟨b, by omega, h2, h3⟩
          · have ha : a = N := by omega
            simp only [hlt, if_false, CandidateResult.isSucc]
            constructor
            · intro hfalse
              exact absurd hfalse (by simp)
            · rintro ⟨b, h1, h2, h3⟩
              have hb : b = a := by omega
              rw [hb, ho] at h3
              simp [AttemptOutcome.isClicked] at h3
      | clicked m c =>
          simp only [Bool.false_eq_true, if_false, CandidateResult.isSucc]
          constructor
          · intro _
            exact ⟨a, Nat.le_refl a, by omega, by rw [ho]; rfl⟩
          · intro _
            trivial

theorem attemptLoop_noconds_evals (oracle : Nat → AttemptOutcome) (N : Nat) :
    (attemptLoop oracle false N 0).evals = 0 :=
  attemptLoopGo_noconds_evals oracle N (N + 1 - 0) 0

theorem attemptLoop_noconds_succ_iff (oracle : Nat → AttemptOutcome) (N : Nat) :
    (attemptLoop oracle false N 0).result.isSucc = true ↔
      ∃ b ≤ N, (oracle b).isClicked = true := by
  rw [attemptLoop]
  rw [attemptLoopGo_noconds_succ_iff oracle N (N + 1 - 0) 0 (by omega)]
  constructor
  · rintro ⟨b, _, h2, h3⟩
    exact ⟨b, h2, h3⟩
  · rintro ⟨b, h2, h3⟩
    exact ⟨b, Nat.zero_le b, h2, h3⟩

theorem selectorLoop_noconds_evals (oracle : Nat → Nat → AttemptOutcome) (N : Nat) :
    ∀ (ids : List Nat) (le : Option String), (selectorLoop oracle false N ids le).evals = 0
  | [], le => by cases le <;> simp [selectorLoop]
  | i :: rest, le => by
      simp only [selectorLoop]
      have h1 : (attemptLoop (oracle i) false N 0).evals = 0 :=
        attemptLoop_noconds_evals (oracle i) N
      cases hres : (attemptLoop (oracle i) false N 0).result with
      | succeeded m => simpa [hres] using h1
      | failedWith e =>
          have h2 := selectorLoop_noconds_evals oracle N rest (some e)
          simp [hres, h1, h2]
      | failedQuiet =>
          have h2 := selectorLoop_noconds_evals oracle N rest le
          simp [hres, h1, h2]

theorem selectorLoop_pass_iff (oracle : Nat → Nat → AttemptOutcome) (hc : Bool) (N : Nat) :
    ∀ (ids : List Nat) (le : Option String),
      ((selectorLoop oracle hc N ids le).isPass = true ↔
        ∃ i ∈ ids, (attemptLoop (oracle i) hc N 0).result.isSucc = true)
  | [], le => by cases le <;> simp [selectorLoop, ExecStats.isPass]
  | i :: rest, le => by
      simp only [selectorLoop]
      cases hres : (attemptLoop (oracle i) hc N 0).result with
      | succeeded m =>
          simp only [hres, ExecStats.isPass]
          constructor
          · intro _
            exact ⟨i, List.mem_cons_self i rest, by rw [hres]; rfl⟩
          · intro _
            trivial
      | failedWith e =>
          have ih := selectorLoop_pass_iff oracle hc N rest (some e)
          constructor
          · intro hp
            rcases ih.mp (by simpa [ExecStats.isPass] using hp) with ⟨j, hj, hsj⟩
            exact ⟨j, List.mem_cons_of_mem i hj, hsj⟩
          · rintro ⟨j, hj, hsj⟩
            rcases List.mem_cons.mp hj with rfl | hj2
            · rw [hres] at hsj
              simp [CandidateResult.isSucc] at hsj
            · simpa [ExecStats.isPass] using ih.mpr ⟨j, hj2, hsj⟩
      | failedQuiet =>
          have ih := selectorLoop_pass_iff oracle hc N rest le
          constructor
          · intro hp
            rcases ih.mp (by simpa [ExecStats.isPass] using hp) with ⟨j, hj, hsj⟩
            exact ⟨j, List.mem_cons_of_mem i hj, hsj⟩
          · rintro ⟨j, hj, hsj⟩
            rcases List.mem_cons.mp hj with rfl | hj2
            · rw [hres] at hsj
              simp [CandidateResult.isSucc] at hsj
            · simpa [ExecStats.isPass] using ih.mpr ⟨j, hj2, hsj⟩

/-- C6: for a step whose success-condition list is empty, the executor never
calls success-condition evaluation (zero stage-4 evaluations), and overall
step success equals action-stage success: the transaction passes exactly
when some candidate's attempt clicks within the retry budget. -/
theorem C6_no_conditions_skip_stage4 (oracle : Nat → Nat → AttemptOutcome)
    (selector : Sum String (List String)) (N : Nat) :
    (execute_click_transaction oracle selector [] N).evals = 0 ∧
    ((execute_click_transaction oracle selector [] N).isPass = true ↔
      ∃ i < (normalizeSelectors selector).length, ∃ a ≤ N, (oracle i a).isClicked = true) := by
  constructor
  · rw [execute_click_transaction]
    exact selectorLoop_noconds_evals oracle N _ none
  · rw [execute_click_transaction]
    rw [selectorLoop_pass_iff oracle (!(List.isEmpty [])) N]
    constructor
    · rintro ⟨i, hi, hsi⟩
      rcases (attemptLoop_noconds_succ_iff (oracle i) N).mp hsi with ⟨b, hb, hcl⟩
      exact ⟨i, List.mem_range.mp hi, b, hb, hcl⟩
    · rintro ⟨i, hi, b, hb, hcl⟩
      exact ⟨i, List.mem_range.mpr hi,
        (attemptLoop_noconds_succ_iff (oracle i) N).mpr ⟨b, hb, hcl⟩⟩

/-! ## Terminal-failure behaviour of the executor (claim C2) -/

theorem selectorLoop_raise_from_err (oracle : Nat → Nat → AttemptOutcome) (hc : Bool) (N : Nat) :
    ∀ (ids : List Nat) (e : String),
      (∀ i ∈ ids, (attemptLoop (oracle i) hc N 0).result.isSucc = false) →
      (selectorLoop oracle hc N ids (some e)).isRaise = true
  | [], e, _ => by simp [selectorLoop, ExecStats.isRaise]
  | i :: rest, e, h => by
      simp only [selectorLoop]
      cases hres : (attemptLoop (oracle i) hc N 0).result with
      | succeeded m =>
          have := h i (List.mem_cons_self i rest)
          rw [hres] at this
          simp [CandidateResult.isSucc] at this
      | failedWith e2 =>
          have ih := selectorLoop_raise_from_err oracle hc N rest e2
            (fun j hj => h j (List.mem_cons_of_mem i hj))
          simpa [ExecStats.isRaise] using ih
      | failedQuiet =>
          have ih := selectorLoop_raise_from_err oracle hc N rest e
            (fun j hj => h j (List.mem_cons_of_mem i hj))
          simpa [ExecStats.isRaise] using ih

theorem selectorLoop_raise_of_some_err (oracle : Nat → Nat → AttemptOutcome) (hc : Bool) (N : Nat) :
    ∀ (ids : List Nat) (le : Option String),
      (∀ i ∈ ids, (attemptLoop (oracle i) hc N 0).result.isSucc = false) →
      (∃ i ∈ ids, (attemptLoop (oracle i) hc N 0).result.isFailedWith = true) →
      (selectorLoop oracle hc N ids le).isRaise = true
  | [], le, _, hex => by
      rcases hex with ⟨i, hi, _⟩
      simp at hi
  | i :: rest, le, h, hex => by
      simp only [selectorLoop]
      cases hres : (attemptLoop (oracle i) hc N 0).result with
      | succeeded m =>
          have := h i (List.mem_cons_self i rest)
          rw [hres] at this
          simp [CandidateResult.isSucc] at this
      | failedWith e2 =>
          have ih := selectorLoop_raise_from_err oracle hc N rest e2
            (fun j hj => h j (List.mem_cons_of_mem i hj))
          simpa [ExecStats.isRaise] using ih
      | failedQuiet =>
          rcases hex with ⟨j, hj, hfj⟩
          rcases List.mem_cons.mp hj with rfl | hj2
          · rw [hres] at hfj
            simp [CandidateResult.isFailedWith] at hfj
          · have ih := selectorLoop_raise_of_some_err oracle hc N rest le
              (fun k hk => h k (List.mem_cons_of_mem i hk)) ⟨j, hj2, hfj⟩
            simpa [ExecStats.isRaise] using ih

theorem selectorLoop_all_quiet (oracle : Nat → Nat → AttemptOutcome) (hc : Bool) (N : Nat) :
    ∀ (ids : List Nat),
      (∀ i ∈ ids, (attemptLoop (oracle i) hc N 0).result = .failedQuiet) →
      (selectorLoop oracle hc N ids none).result = .ok (false, "unknown")
  | [], _ => rfl
  | i :: rest, h => by
      simp only [selectorLoop]
      have hres := h i (List.mem_cons_self i rest)
      rw [hres]
      exact selectorLoop_all_quiet oracle hc N rest
        (fun j hj => h j (List.mem_cons_of_mem i hj))

/-- C2 counterexample: a click transaction with the non-empty candidate
list `["#a"]` and a non-empty success-condition list, against a browser in
which every attempt clicks but the conditions are never satisfied, exhausts
all candidates yet raises nothing: it returns `(False, "unknown")` instead
of raising a terminal step failure. -/
theorem C2_all_candidates_fail_without_raise :
    (attemptLoop (oracleCondFail 0) true 2 0).result = .failedQuiet ∧
    (execute_click_transaction oracleCondFail (.inr ["#a"]) [exCondWelcome] 2).isRaise = false ∧
    (execute_click_transaction oracleCondFail (.inr ["#a"]) [exCondWelcome] 2).result
      = .ok (false, "unknown") := by
  decide

/-- C2 (amended): when the candidate list is non-empty and every candidate
fails after all its retries, `execute_click_transaction` never reports
success; if at least one candidate failed with a raised exception, the last
recorded exception is re-raised to the caller, and if every candidate
failed only because its success conditions were never satisfied, the
failing result `(False, "unknown")` is returned instead of a raise. -/
theorem C2_terminal_failure_amended (oracle : Nat → Nat → AttemptOutcome)
    (selector : Sum String (List String)) (conds : List SuccessCondition) (N : Nat)
    (hfail : ∀ i < (normalizeSelectors selector).length,
      (attemptLoop (oracle i) (!conds.isEmpty) N 0).result.isSucc = false) :
    (execute_click_transaction oracle selector conds N).isPass = false ∧
    ((∃ i < (normalizeSelectors selector).length,
        (attemptLoop (oracle i) (!conds.isEmpty) N 0).result.isFailedWith = true) →
      (execute_click_transaction oracle selector conds N).isRaise = true) ∧
    ((∀ i < (normalizeSelectors selector).length,
        (attemptLoop (oracle i) (!conds.isEmpty) N 0).result = .failedQuiet) →
      (execute_click_transaction oracle selector conds N).result = .ok (false, "unknown")) := by
  refine ⟨?_, ?_, ?_⟩
  · rw [execute_click_transaction]
    rw [Bool.eq_false_iff]
    intro hp
    rcases (selectorLoop_pass_iff oracle (!conds.isEmpty) N _ none).mp hp with ⟨i, hi, hsi⟩
    have := hfail i (List.mem_range.mp hi)
    rw [this] at hsi
    exact Bool.false_ne_true hsi
  · rintro ⟨i, hi, hfi⟩
    rw [execute_click_transaction]
    exact selectorLoop_raise_of_some_err oracle (!conds.isEmpty) N _ none
      (fun j hj => hfail j (List.mem_range.mp hj))
      ⟨i, List.mem_range.mpr hi, hfi⟩
  · intro hq
    rw [execute_click_transaction]
    exact selectorLoop_all_quiet oracle (!conds.isEmpty) N _
      (fun j hj => hq j (List.mem_range.mp hj))

/-- C2 witness: the amended theorem applied to the concrete
condition-failing browser oracle. -/
theorem C2_terminal_failure_amended_witness :
    (execute_click_transaction oracleCondFail (.inr ["#a"]) [exCondWelcome] 2).isPass = false ∧
    (execute_click_transaction oracleCondFail (.inr ["#a"]) [exCondWelcome] 2).result
      = .ok (false, "unknown") := by
  have h := C2_terminal_failure_amended oracleCondFail (.inr ["#a"]) [exCondWelcome] 2
    (by decide)
  exact ⟨h.1, h.2.2 (by decide)⟩

/-! ## Run-loop abort behaviour (claim C7) -/

theorem runLoopGo_spec (stepExec : Nat → String → Except String Unit) :
    ∀ (pre : List String) (i : Nat) (post : List String) (tf e : String),
      (∀ j < pre.length, stepExec (i + j) (pre.getD j "") = .ok ()) →
      stepExec (i + pre.length) tf = .error e →
      runLoopGo stepExec i (pre ++ tf :: post) =
        { log := passedLog i pre
            ++ [{ idx := i + pre.length, stype := tf, status := "FAILED" }]
          artifacts := [i + pre.length]
          result := .error e }
  | [], i, post, tf, e => by
      intro _ hfail
      rw [show i + List.length [] = i from rfl] at hfail
      rw [List.nil_append, runLoopGo, hfail]
      rfl
  | p :: ps, i, post, tf, e => by
      intro hok hfail
      have h0 : stepExec i p = .ok () := by
        have h := hok 0 (by simp)
        rw [show i + 0 = i from rfl] at h
        exact h
      have hok2 : ∀ j < ps.length, stepExec (i + 1 + j) (ps.getD j "") = .ok () := by
        intro j hj
        have h := hok (j + 1) (by simpa using Nat.succ_lt_succ hj)
        rw [show i + (j + 1) = i + 1 + j from by omega] at h
        simpa using h
      have hfail2 : stepExec (i + 1 + ps.length) tf = .error e := by
        rw [show i + 1 + ps.length = i + (p :: ps).length from by
          simp only [List.length_cons]; omega]
        exact hfail
      rw [List.cons_append, runLoopGo, h0,
        runLoopGo_spec stepExec ps (i + 1) post tf e hok2 hfail2]
      rw [passedLog]
      rw [show i + (p :: ps).length = i + 1 + ps.length from by
        simp only [List.length_cons]; omega]
      rfl

/-- C7: when a step of the scenario raises an unrecovered error, the run
loop of `test_scenario` logs PASSED entries for every earlier step, a FAILED
entry for the failing step, collects the failure artifacts exactly for that
step, re-raises the error, and executes no later step (no entry beyond the
failing one appears in the log). -/
theorem C7_abort_on_failure (stepExec : Nat → String → Except String Unit)
    (pre post : List String) (tf e : String)
    (hok : ∀ j < pre.length, stepExec (1 + j) (pre.getD j "") = .ok ())
    (hfail : stepExec (1 + pre.length) tf = .error e) :
    test_scenario_run stepExec (pre ++ tf :: post) =
      { log := passedLog 1 pre
          ++ [{ idx := 1 + pre.length, stype := tf, status := "FAILED" }]
        artifacts := [1 + pre.length]
        result := .error e } :=
  runLoopGo_spec stepExec pre 1 post tf e hok hfail

/-- C7 witness: a three-step scenario whose second step fails is logged as
one PASSED and one FAILED entry, the third step never runs, artifacts are
collected for step 2 and the error is re-raised. -/
theorem C7_abort_on_failure_witness :
    test_scenario_run exStepExec ["go", "click", "fill"] =
      { log := [{ idx := 1, stype := "go", status := "PASSED" },
          { idx := 2, stype := "click", status := "FAILED" }]
        artifacts := [2]
        result := .error "AllStrategiesFailed" } := by
  have h := C7_abort_on_failure exStepExec ["go"] ["fill"] "click" "AllStrategiesFailed"
    (by decide) (by decide)
  simpa [passedLog] using h

/-! ## `wait_url` prefix matching (claim C8) -/

theorem urlMatchWithin_iff (live : Nat → String) (timeout : Nat) (p : String → Bool) :
    urlMatchWithin live timeout p = true ↔ ∃ t ≤ timeout, p (live t) = true := by
  rw [urlMatchWithin, List.any_eq_true]
  constructor
  · rintro ⟨t, ht, hp⟩
    exact ⟨t, Nat.lt_succ_iff.mp (List.mem_range.mp ht), hp⟩
  · rintro ⟨t, ht, hp⟩
    exact ⟨t, List.mem_range.mpr (Nat.lt_succ_iff.mpr ht), hp⟩

/-- C8: a `wait_url` step whose URL ends in `*` succeeds exactly when the
live URL starts, at some instant within the timeout, with the part of the
URL before the `*`; when the live URL never matches that part within the
timeout, the step fails with the success-condition timeout error. -/
theorem C8_wait_url_star (url : String) (timeout : Nat) (live : Nat → String)
    (h : pyEndsWith url "*" = true) :
    (run_wait_url url timeout live = .ok () ↔
      ∃ t ≤ timeout, pyStartsWith (live t) (url.dropRight 1) = true) ∧
    ((∀ t ≤ timeout, pyStartsWith (live t) (url.dropRight 1) = false) →
      run_wait_url url timeout live = .error .successConditionTimeout) := by
  have hne : (url == "") = false := by
    cases hu : url == ""
    · rfl
    · exfalso
      rw [eq_of_beq hu] at h
      exact absurd h (by decide)
  rw [run_wait_url]
  simp only [hne, Bool.false_eq_true, if_false, h, if_true]
  by_cases hm : urlMatchWithin live timeout (fun u => pyStartsWith u (url.dropRight 1)) = true
  · simp only [hm, if_true]
    rcases (urlMatchWithin_iff live timeout _).mp hm with ⟨t, ht, hp⟩
    refine ⟨⟨fun _ => ⟨t, ht, hp⟩, fun _ => trivial⟩, fun hall => ?_⟩
    rw [hall t ht] at hp
    exact absurd hp (by simp)
  · have hm2 : urlMatchWithin live timeout (fun u => pyStartsWith u (url.dropRight 1)) = false := by
      cases hv : urlMatchWithin live timeout (fun u => pyStartsWith u (url.dropRight 1))
      · rfl
      · exact absurd hv hm
    have hnone : ∀ t ≤ timeout, pyStartsWith (live t) (url.dropRight 1) = false := by
      intro t ht
      cases hv : pyStartsWith (live t) (url.dropRight 1)
      · rfl
      · exact absurd ((urlMatchWithin_iff live timeout _).mpr ⟨t, ht, hv⟩) hm
    simp only [hm2, Bool.false_eq_true, if_false,
      hnone timeout (Nat.le_refl timeout)]
    refine ⟨⟨fun hbad => absurd hbad (by simp), ?_⟩, fun _ => trivial⟩
    rintro ⟨t, ht, hp⟩
    rw [hnone t ht] at hp
    exact absurd hp (by simp)

/-- C8 witness: with the URL pattern of the spec scenario, a live URL that
becomes `https://x.test/done?id=1` passes, and one that stays at
`https://x.test/start` fails with the success-condition timeout. -/
theorem C8_wait_url_star_witness :
    run_wait_url "https://x.test/done*" 5 liveDone = .ok () ∧
    run_wait_url "https://x.test/done*" 5 liveStuck = .error .successConditionTimeout := by
  constructor
  · exact (C8_wait_url_star "https://x.test/done*" 5 liveDone (by decide)).1.mpr
      ⟨1, by decide, by decide⟩
  · exact (C8_wait_url_star "https://x.test/done*" 5 liveStuck (by decide)).2 (by decide)

/-! ## `click_popup` page-stack behaviour (claim C9) -/

/-- C9 counterexample: a `click_popup` step whose click does open a new page
(page `1`, at `https://b.test/x`) but whose configured `popup_url` does not
match raises instead of pushing the page, so "if a new page does open, it
is pushed onto the page stack and becomes the active page" fails as
stated. -/
theorem C9_popup_url_mismatch_not_pushed :
    run_click_popup [0] (some 1) "https://b.test/x" "https://a.test"
      = .error .popupUrlMismatch ∧
    run_click_popup [0] (some 1) "https://b.test/x" "https://a.test"
      ≠ .ok ([0, 1], 1) := by
  decide

/-- C9 (amended): a `click_popup` step whose click opens no new page within
its timeout raises `PopupNotOpened` (it does not continue silently); when a
new page opens and the step's optional `popup_url` is absent or matches the
new page's URL exactly or as a prefix, the new page is pushed onto the page
stack and becomes the active page. -/
theorem C9_popup_amended (stack : List Nat) (opened : Option Nat)
    (openedUrl popup_url : String) :
    (run_click_popup stack none openedUrl popup_url = .error .popupNotOpened) ∧
    (∀ np, opened = some np →
      (popup_url = "" ∨ (openedUrl == popup_url) = true
        ∨ pyStartsWith openedUrl popup_url = true) →
      run_click_popup stack opened openedUrl popup_url = .ok (stack ++ [np], np)) := by
  refine ⟨rfl, ?_⟩
  rintro np rfl hp
  rw [run_click_popup]
  rcases hp with hp | hp | hp
  · rw [hp]
    rfl
  · rw [hp]
    simp
  · rw [hp]
    simp

/-- C9 witness: the amended theorem applied to a popup that opens page `1`
at a URL extending the configured `popup_url`, and to a click that opens no
page. -/
theorem C9_popup_amended_witness :
    run_click_popup [0] (some 1) "https://x.test/popup?x=1" "https://x.test/popup"
      = .ok ([0, 1], 1) ∧
    run_click_popup [0] none "" "" = .error .popupNotOpened := by
  constructor
  · exact (C9_popup_amended [0] (some 1) "https://x.test/popup?x=1" "https://x.test/popup").2
      1 rfl (Or.inr (Or.inr (by decide)))
  · exact (C9_popup_amended [0] none "" "").1

/-! ## `text=` candidate filtering in `run_step` (claim C10) -/

theorem charsPrefix_of_append (a b l : List Char) (h : charsPrefix (a ++ b) l = true) :
    charsPrefix a l = true := by
  induction a generalizing l with
  | nil => rfl
  | cons p ps ih =>
      cases l with
      | nil => simp [charsPrefix] at h
      | cons c cs =>
          rw [List.cons_append, charsPrefix, Bool.and_eq_true] at h
          rw [charsPrefix, Bool.and_eq_true]
          exact ⟨h.1, ih cs h.2⟩

theorem pyStartsWith_of_isTextSel (s : String) (h : isTextSel s = true) :
    pyStartsWith s "text=" = true := by
  rw [isTextSel, Bool.or_eq_true] at h
  rcases h with h | h
  · exact h
  · rw [pyStartsWith] at h ⊢
    refine charsPrefix_of_append "text=".data "\"".data s.data ?_
    rw [show "text=".data ++ "\"".data = "text=\"".data from by decide]
    exact h

/-- C10: when `run_step` executes a compiled click step with a `selectors`
list, every candidate beginning with `text=` is filtered out before any
click is attempted; the filtered list contains no `text=` candidate, the
original list is used only when filtering removed every candidate, and
consequently a `text=` candidate is clicked only when every candidate of
the list begins with `text=`. -/
theorem C10_text_candidates_filtered (selectors : List String) :
    (∀ s ∈ clickable_selectors selectors, isTextSel s = false) ∧
    (clickable_selectors selectors ≠ [] →
      selectorsForClick selectors = clickable_selectors selectors) ∧
    (∀ s ∈ selectorsForClick selectors, isTextSel s = true →
      ∀ t ∈ selectors, pyStartsWith t "text=" = true) := by
  refine ⟨?_, ?_, ?_⟩
  · intro s hs
    rcases List.mem_filter.mp hs with ⟨_, hns⟩
    cases hv : isTextSel s
    · rfl
    · rw [hv] at hns
      exact absurd hns (by simp)
  · intro hne
    rw [selectorsForClick]
    simp only [List.isEmpty_iff]
    rw [if_neg hne]
  · intro s hs hstext t ht
    by_cases hcl : clickable_selectors selectors = []
    · have htf : isTextSel t = true := by
        cases hv : isTextSel t
        · exfalso
          have : t ∈ clickable_selectors selectors :=
            List.mem_filter.mpr ⟨ht, by rw [hv]; rfl⟩
          rw [hcl] at this
          simp at this
        · rfl
      exact pyStartsWith_of_isTextSel t htf
    · exfalso
      rw [selectorsForClick] at hs
      simp only [List.isEmpty_iff] at hs
      rw [if_neg hcl] at hs
      rcases List.mem_filter.mp hs with ⟨_, hns⟩
      rw [hstext] at hns
      exact absurd hns (by simp)

/-- C10 witness: in the list `["text=x", "text=\"Hi\""]` every candidate is
filtered, the original list is used, and the theorem yields that every
clicked candidate begins with `text=`. -/
theorem C10_text_candidates_filtered_witness :
    pyStartsWith "text=\"Hi\"" "text=" = true :=
  (C10_text_candidates_filtered ["text=x", "text=\"Hi\""]).2.2
    "text=x" (by decide) (by decide) "text=\"Hi\"" (by decide)

end E2E
